import Mathlib

/-!
Shallow embedding of the telegraf agent core (`agent.go`) and proofs of the
spec claims about it.

The Go source is a single file defining the `Agent` struct and its methods:
`NewAgent`, `Connect`, `Close`, `LoadOutputs`, `LoadPlugins`, `gatherParallel`,
`gatherSeparate`, `Test`, `writeOutput`, `flush`, `flusher`, `Run`.

Modelling conventions:
* Go durations are modelled as `Nat` (nanoseconds); `0` means "unset".
* Go `error` values are modelled as `Option String` (`none` = nil).
* Opaque plugin/sink behaviour (the result of each `Gather`, `Connect`,
  `Write`, `Close` call) is supplied by oracle functions, indexed by call
  number where the code can call more than once.
* Side effects that the claims talk about (log lines, sleeps, spawned
  goroutines, `sink.Write` invocations) are reified as event traces.
-/

namespace Telegraf

/-- A tag map, as an association list (insertion order kept, keys unique
by construction of `setTag`). Models a Go `map[string]string` together with
the operations the agent uses on it. -/
abbrev TagMap := List (String × String)

/-- Assignment `m[k] = v` on a Go string map: overwrite the binding if the
key is present, otherwise add it. -/
def setTag : TagMap → String → String → TagMap
  | [], k, v => [(k, v)]
  | (k', v') :: rest, k, v =>
    if k' = k then (k, v) :: rest else (k', v') :: setTag rest k v

/-- Lookup `m[k]` on a Go string map. -/
def lookupTag (m : TagMap) (k : String) : Option String :=
  match m with
  | [] => none
  | (k', v') :: rest => if k' = k then some v' else lookupTag rest k

/-- One measurement point (`client.Point`): name, tags, a field value and a
timestamp. The agent core never inspects the contents; only batch sizes
matter to the claims. -/
structure Point where
  measurement : String
  tags : TagMap
  value : Int
  time : Nat
deriving DecidableEq, Repr

/-- Per-plugin resolved configuration (`ConfiguredPlugin`).
Modelled from the spec: the config layer is outside `agent.go`; the spec
gives it an optional per-plugin collection interval (zero means "use
global"), a tag whitelist and a measurement drop list. -/
structure ConfiguredPlugin where
  Interval : Nat
  Pass : List String
  Drop : List String
deriving DecidableEq, Repr

/-- `runningPlugin`: a named collector with its resolved configuration.
The collector instance itself is opaque; its `Gather` results are supplied
as oracles to the functions that call it. -/
structure RunningPlugin where
  name : String
  config : ConfiguredPlugin
deriving DecidableEq, Repr

/-- `runningOutput`: a named sink. The sink instance is opaque; its
`Connect` results (indexed by call number) and `Close` result are carried
as oracle fields; `Write` results are passed to `writeOutput` separately. -/
structure OutputSink where
  name : String
  connectResult : Nat → Option String
  closeResult : Option String

/-- The `Agent` struct: scheduling parameters, default tags, and the loaded
plugin and output lists. -/
structure Agent where
  Interval : Nat
  FlushInterval : Nat
  FlushRetries : Nat
  UTC : Bool
  Precision : String
  Debug : Bool
  Hostname : String
  Tags : TagMap
  outputs : List OutputSink
  plugins : List RunningPlugin

/-! ## Close (`agent.go` lines 115-121)

```go
func (a *Agent) Close() error {
    var err error
    for _, o := range a.outputs {
        err = o.output.Close()
    }
    return err
}
```

The loop body overwrites `err` on every iteration, so only the last sink's
result survives. The embedding returns the trace of `Close` invocations (the
sink names, in iteration order) together with the returned error. -/

/-- The `Close` loop, threading the current value of the `err` variable. -/
def closeLoop (err : Option String) : List OutputSink → List String × Option String
  | [] => ([], err)
  | o :: rest =>
    let r := closeLoop o.closeResult rest
    (o.name :: r.1, r.2)

/-- `Agent.Close`: close every configured output, return the last result. -/
def Close (a : Agent) : List String × Option String :=
  closeLoop none a.outputs

/-! ## flush (`agent.go` lines 338-346)

```go
func (a *Agent) flush(points []*client.Point, shutdown chan struct{}) {
    if len(points) == 0 {
        return
    }
    for _, o := range a.outputs {
        go a.writeOutput(points, o, shutdown)
    }
}
```

The embedding returns the list of spawned writer tasks, one `(batch, sink
name)` pair per `go` statement, in spawn order. -/

/-- The writer-spawning loop of `flush`. -/
def flushSpawns (points : List Point) : List OutputSink → List (List Point × String)
  | [] => []
  | o :: rest => (points, o.name) :: flushSpawns points rest

/-- `Agent.flush`: dispatch a batch to every configured output, unless the
batch is empty. -/
def flush (a : Agent) (points : List Point) : List (List Point × String) :=
  if points.length = 0 then []
  else flushSpawns points a.outputs

/-! ## Connect (`agent.go` lines 93-112)

```go
func (a *Agent) Connect() error {
    for _, o := range a.outputs {
        ...
        err := o.output.Connect()
        if err != nil {
            log.Printf("Failed to connect to output %s, retrying in 15s\n", o.name)
            time.Sleep(15 * time.Second)
            err = o.output.Connect()
            if err != nil {
                return err
            }
        }
        ...
    }
    return nil
}
```

Events: each `o.output.Connect()` call (sink name, call number) and the
15-second sleep before a retry. -/

/-- Observable events of `Agent.Connect`. -/
inductive ConnEvent where
  | attempt (name : String) (n : Nat)
  | sleep15 (name : String)
deriving DecidableEq, Repr

/-- The per-sink body of the `Connect` loop: first attempt, then on failure
a 15-second sleep and exactly one retry whose error (if any) is returned. -/
def connectOne (o : OutputSink) : List ConnEvent × Option String :=
  match o.connectResult 0 with
  | none => ([ConnEvent.attempt o.name 0], none)
  | some _ =>
    match o.connectResult 1 with
    | none => ([ConnEvent.attempt o.name 0, ConnEvent.sleep15 o.name,
                ConnEvent.attempt o.name 1], none)
    | some e2 => ([ConnEvent.attempt o.name 0, ConnEvent.sleep15 o.name,
                   ConnEvent.attempt o.name 1], some e2)

/-- The `Connect` loop over the configured outputs: stop with the error on a
doubly-failed sink, otherwise continue; nil once every sink connected. -/
def connectLoop : List OutputSink → List ConnEvent × Option String
  | [] => ([], none)
  | o :: rest =>
    let r := connectOne o
    match r.2 with
    | some e => (r.1, some e)
    | none =>
      let rr := connectLoop rest
      (r.1 ++ rr.1, rr.2)

/-- `Agent.Connect`. -/
def Connect (a : Agent) : List ConnEvent × Option String :=
  connectLoop a.outputs

/-! ## LoadOutputs / LoadPlugins (`agent.go` lines 124-180)

```go
func (a *Agent) LoadOutputs(filters []string, config *Config) ([]string, error) {
    var names []string
    for _, name := range config.OutputsDeclared() {
        creator, ok := outputs.Outputs[name]
        if !ok {
            return nil, fmt.Errorf("Undefined but requested output: %s", name)
        }
        if sliceContains(name, filters) || len(filters) == 0 {
            ...instantiate, append to a.outputs and names...
        }
    }
    sort.Strings(names)
    return names, nil
}
```

`LoadPlugins` has the same shape over the plugin registry. The registries
and the declared-name lists come from the config layer (outside `agent.go`),
so they are passed in as plain string lists; `config.ApplyOutput` /
`config.ApplyPlugin` are config-layer calls modelled as succeeding. -/

/-- Modelled from the spec: the helper `sliceContains` (defined outside
`agent.go`) tests membership of a name in a string slice. -/
def sliceContains (name : String) (ss : List String) : Bool :=
  ss.contains name

/-- The error message for a declared name missing from a registry;
`what` is "output" or "plugin". -/
def undefinedMsg (what name : String) : String :=
  "Undefined but requested " ++ what ++ ": " ++ name

/-- The declaration-order loading loop shared by `LoadOutputs` and
`LoadPlugins`: fail fast on a name missing from the registry (even one the
filter would exclude), otherwise instantiate the names passing the filter. -/
def loadNames (what : String) (registered filters : List String) :
    List String → Except String (List String)
  | [] => Except.ok []
  | n :: rest =>
    if registered.contains n = false then
      Except.error (undefinedMsg what n)
    else if sliceContains n filters || filters.length == 0 then
      match loadNames what registered filters rest with
      | Except.ok ns => Except.ok (n :: ns)
      | Except.error e => Except.error e
    else
      loadNames what registered filters rest

/-- Lexicographic comparison of character lists by code point. Go's
`sort.Strings` orders by UTF-8 bytes, and UTF-8 byte order coincides with
code-point order. -/
def strLeChars : List Char → List Char → Bool
  | [], _ => true
  | _ :: _, [] => false
  | a :: as, b :: bs =>
    if a.toNat < b.toNat then true
    else if b.toNat < a.toNat then false
    else strLeChars as bs

/-- Go string `<=`: lexicographic on the character sequences. -/
def strLe (s t : String) : Bool :=
  strLeChars s.data t.data

/-- `sort.Strings`, as insertion sort over the Go string order. -/
def insertSorted (s : String) : List String → List String
  | [] => [s]
  | t :: ts => if strLe s t then s :: t :: ts else t :: insertSorted s ts

/-- `sort.Strings` on a name list. -/
def sortStrings (xs : List String) : List String :=
  xs.foldr insertSorted []

/-- `Agent.LoadOutputs`: the sorted names of the outputs instantiated from
the declared list, or the fail-fast error. -/
def LoadOutputs (declared registered filters : List String) :
    Except String (List String) :=
  (loadNames "output" registered filters declared).map sortStrings

/-- `Agent.LoadPlugins`: the sorted names of the plugins instantiated from
the declared list, or the fail-fast error. -/
def LoadPlugins (declared registered filters : List String) :
    Except String (List String) :=
  (loadNames "plugin" registered filters declared).map sortStrings

/-! ## Accumulator setup (`agent.go` lines 199-202, 232-235, 267-270)

`NewAccumulator(config, pointChan)` builds a fresh accumulator; the agent
then configures it by calling some of `SetDebug`, `SetPrefix` (here
`setPfx`) and `SetDefaultTags`. Only this setup happens in `agent.go`; the
accumulator's own publishing behaviour lives elsewhere. The embedding
records the state the setter calls leave behind, with `defaultTags = none`
meaning `SetDefaultTags` was never called. -/

/-- The accumulator configuration state installed by the agent. -/
structure Accum where
  config : ConfiguredPlugin
  debug : Bool
  pfx : String
  defaultTags : Option TagMap
deriving DecidableEq, Repr

/-- `NewAccumulator(config, pointChan)`: fresh accumulator, nothing set. -/
def NewAccumulator (config : ConfiguredPlugin) : Accum :=
  { config := config, debug := false, pfx := "", defaultTags := none }

/-- `acc.SetDebug(b)`. -/
def Accum.setDebug (acc : Accum) (b : Bool) : Accum :=
  { acc with debug := b }

/-- `acc.SetPrefix(s)` of the source (renamed). -/
def Accum.setPfx (acc : Accum) (s : String) : Accum :=
  { acc with pfx := s }

/-- `acc.SetDefaultTags(m)`. -/
def Accum.setDefaultTags (acc : Accum) (m : TagMap) : Accum :=
  { acc with defaultTags := some m }

/-- The accumulator `gatherParallel` hands to a plugin's `Gather`
(`agent.go` lines 199-202): debug flag, name prefixing and the agent's
default tags are all installed. -/
def parallelAccum (a : Agent) (p : RunningPlugin) : Accum :=
  (((NewAccumulator p.config).setDebug a.Debug).setPfx
    (p.name ++ "_")).setDefaultTags a.Tags

/-- The accumulator `gatherSeparate` hands to its plugin's `Gather`
(`agent.go` lines 232-235): identical setup to the parallel mode. -/
def separateAccum (a : Agent) (p : RunningPlugin) : Accum :=
  (((NewAccumulator p.config).setDebug a.Debug).setPfx
    (p.name ++ "_")).setDefaultTags a.Tags

/-- The accumulator `Test` hands to each plugin's `Gather` (`agent.go`
lines 267-270): debug is forced on and the prefix is set, but
`SetDefaultTags` is never called. -/
def testAccum (p : RunningPlugin) : Accum :=
  ((NewAccumulator p.config).setDebug true).setPfx (p.name ++ "_")

/-! ## Gather scheduling (`agent.go` lines 184-256 and 399-409)

`gatherParallel` skips every plugin whose configured interval is non-zero
(`if plugin.config.Interval != 0 { continue }`); `Run` spawns a
`gatherSeparate` goroutine for every plugin whose configured interval is
non-zero (`if plugin.config.Interval != 0 { ... go gatherSeparate ... }`). -/

/-- The plugins `gatherParallel` spawns a gather task for on one tick:
the loop over `a.plugins` with the `Interval != 0 → continue` guard. -/
def gatherParallelTasks : List RunningPlugin → List RunningPlugin
  | [] => []
  | p :: rest =>
    if p.config.Interval != 0 then gatherParallelTasks rest
    else p :: gatherParallelTasks rest

/-- The plugins `Run` dedicates a separate-interval gatherer to: the loop
over `a.plugins` with the `Interval != 0` guard. -/
def runSeparateTasks : List RunningPlugin → List RunningPlugin
  | [] => []
  | p :: rest =>
    if p.config.Interval != 0 then p :: runSeparateTasks rest
    else runSeparateTasks rest

/-- "Error in plugin [%s]: %s" (`agent.go` lines 205 and 238). -/
def errorLogLine (name e : String) : String :=
  "Error in plugin [" ++ name ++ "]: " ++ e

/-- The outcome of one `gatherParallel` call: which accumulators were handed
out (one per spawned task, all awaited by `wg.Wait()`), the error log lines,
and the returned error. `gErr name` is the oracle for that plugin's `Gather`
result on this tick. -/
structure GatherOutcome where
  accums : List Accum
  logs : List String
  result : Option String
deriving DecidableEq, Repr

/-- `Agent.gatherParallel`: spawn a gather task per zero-interval plugin,
log (and swallow) each task's error, wait for all, return nil. -/
def gatherParallel (a : Agent) (gErr : String → Option String) : GatherOutcome :=
  let ps := gatherParallelTasks a.plugins
  { accums := ps.map (fun p => parallelAccum a p)
    logs := ps.filterMap (fun p => (gErr p.name).map (fun e => errorLogLine p.name e))
    result := none }

/-- How one run of the `gatherSeparate` loop ended. -/
inductive SepExit where
  | timeout
  | shutdownExit
  | errExit (e : String)
deriving DecidableEq, Repr

/-- The `gatherSeparate` loop (`agent.go` lines 226-255), fuelled. Iteration
`i` gathers (the oracle `gErr i` is its plugin's `Gather` error, logged and
not stored — `outerr` is declared but never assigned in the source, so the
`return outerr` branch is dead), then selects on shutdown (`sd i`) versus the
ticker. Returns the number of `Gather` invocations, the error log lines, and
how the loop exited; fuel exhaustion is reported as `timeout`. -/
def gatherSeparateRun (name : String) (gErr : Nat → Option String)
    (sd : Nat → Bool) : Nat → Nat → Nat × List String × SepExit
  | 0, _ => (0, [], SepExit.timeout)
  | fuel + 1, i =>
    let outerr : Option String := none
    let logsHere : List String :=
      match gErr i with
      | some e => [errorLogLine name e]
      | none => []
    match outerr with
    | some e => (1, logsHere, SepExit.errExit e)
    | none =>
      if sd i then (1, logsHere, SepExit.shutdownExit)
      else
        let r := gatherSeparateRun name gErr sd fuel (i + 1)
        (r.1 + 1, logsHere ++ r.2.1, r.2.2)

/-! ## NewAgent (`agent.go` lines 62-90)

```go
func NewAgent(config *Config) (*Agent, error) {
    agent := &Agent{ Tags: make(map[string]string), Interval: 10s,
                     FlushInterval: 10s, FlushRetries: 2, UTC: true,
                     Precision: "s" }
    err := config.ApplyAgent(agent)
    if err != nil { return nil, err }
    if agent.Hostname == "" {
        hostname, err := os.Hostname()
        if err != nil { return nil, err }
        agent.Hostname = hostname
    }
    agent.Tags["host"] = agent.Hostname
    return agent, nil
}
```

The final tag assignment is unconditional: it overwrites any `host` tag the
config supplied. `os.Hostname` is an oracle (`none` = the call fails); the
returned flag records whether it was consulted. -/

/-- The agent-section configuration values `ApplyAgent` applies.
Modelled from the spec: the config layer (TOML parsing, `ApplyAgent`) is
outside `agent.go`; per the spec it carries `hostname` (empty = unset,
default OS hostname) and a `tags` string map, applied over the defaults. -/
structure Config where
  hostname : String
  tags : TagMap
deriving DecidableEq, Repr

/-- The literal struct defaults of `NewAgent` before `ApplyAgent` runs. -/
def defaultAgent : Agent :=
  { Interval := 10000000000, FlushInterval := 10000000000, FlushRetries := 2,
    UTC := true, Precision := "s", Debug := false, Hostname := "",
    Tags := [], outputs := [], plugins := [] }

/-- Modelled from the spec: `config.ApplyAgent` overrides the agent's
defaults with the values set in the config table — here the hostname (when
non-empty) and the tag map. -/
def ApplyAgent (cfg : Config) (a : Agent) : Agent :=
  { a with
    Hostname := if cfg.hostname = "" then a.Hostname else cfg.hostname,
    Tags := cfg.tags.foldl (fun t kv => setTag t kv.1 kv.2) a.Tags }

/-- `NewAgent`: apply the config, resolve the OS hostname only when the
config left it empty, then unconditionally set `Tags["host"]` to the final
hostname. Returns the agent and whether `os.Hostname` was called; `none`
models the error return when `os.Hostname` fails. -/
def NewAgent (cfg : Config) (osHostname : Option String) :
    Option (Agent × Bool) :=
  let a0 := ApplyAgent cfg defaultAgent
  let resolved : Option (Agent × Bool) :=
    if a0.Hostname = "" then
      osHostname.map fun h => ({ a0 with Hostname := h }, true)
    else
      some (a0, false)
  resolved.map fun r =>
    ({ r.1 with Tags := setTag r.1.Tags "host" r.1.Hostname }, r.2)

/-! ## writeOutput (`agent.go` lines 297-335)

```go
func (a *Agent) writeOutput(points []*client.Point, ro *runningOutput,
                            shutdown chan struct{}) {
    retry := 0
    retries := a.FlushRetries
    start := time.Now()
    for {
        err := ro.output.Write(points)
        select {
        case <-shutdown:
            return
        default:
            if err == nil {
                ... log "Flushed %d metrics to output %s in %s" ...
                return
            } else if retry >= retries {
                msg := "FATAL: Write to output [%s] failed %d times, dropping" +
                    " %d metrics\n"
                log.Printf(msg, ro.name, retries+1, len(points))
                return
            } else if err != nil {
                ... log "Error in output [%s]: %s, retrying in %s" ...
                time.Sleep(a.FlushInterval.Duration)
            }
        }
        retry++
    }
}
```

Points of note for the claims: the shutdown check sits *after* the `Write`
call, and the inter-retry wait is an uninterruptible `time.Sleep` — a
shutdown signalled during the sleep is only observed at the select that
follows the *next* `Write`.

Oracles: `ok i` is whether `Write` attempt number `i` (= the value of
`retry` at that attempt) succeeds, and `sd i` is whether the shutdown case
fires at the select following attempt `i` (once the channel is closed every
later check fires, but no monotonicity is assumed). -/

/-- Observable events of one `writeOutput` invocation. -/
inductive WEvent where
  | writeAttempt (i : Nat)
  | logFlushed (npoints : Nat) (name : String)
  | logFatalDrop (name : String) (count npoints : Nat)
  | logRetrying (name : String)
  | sleepFlushInterval
deriving DecidableEq, Repr

/-- How a `writeOutput` invocation returned. -/
inductive WOutcome where
  | shutdownExit
  | success
  | dropped
deriving DecidableEq, Repr

/-- The `writeOutput` retry loop from `retry = r` on: the trace of events
and the way the loop returned. -/
def writeOutputFrom (retries npoints : Nat) (name : String)
    (ok sd : Nat → Bool) (r : Nat) : List WEvent × WOutcome :=
  if sd r then
    ([WEvent.writeAttempt r], WOutcome.shutdownExit)
  else if ok r then
    ([WEvent.writeAttempt r, WEvent.logFlushed npoints name], WOutcome.success)
  else if h : retries ≤ r then
    ([WEvent.writeAttempt r, WEvent.logFatalDrop name (retries + 1) npoints],
     WOutcome.dropped)
  else
    (WEvent.writeAttempt r :: WEvent.logRetrying name ::
       WEvent.sleepFlushInterval ::
         (writeOutputFrom retries npoints name ok sd (r + 1)).1,
     (writeOutputFrom retries npoints name ok sd (r + 1)).2)
termination_by retries - r
decreasing_by all_goals simp_wf; omega

/-- `Agent.writeOutput`: the loop entered with `retry = 0` and
`retries = a.FlushRetries`, on a batch written to the sink `name`. -/
def writeOutput (a : Agent) (points : List Point) (name : String)
    (ok sd : Nat → Bool) : List WEvent × WOutcome :=
  writeOutputFrom a.FlushRetries points.length name ok sd 0

/-- The number of `sink.Write` invocations recorded in a trace. -/
def countAttempts (tr : List WEvent) : Nat :=
  tr.countP fun e =>
    match e with
    | WEvent.writeAttempt _ => true
    | _ => false

/-- The severity prefix of the drop log line. -/
def fatalHdr : String := "FATAL: "

/-- The log line a `WEvent` prints, if any (the elapsed-time and error-text
parts of the source's format strings are not modelled). -/
def renderLog : WEvent → Option String
  | WEvent.writeAttempt _ => none
  | WEvent.logFlushed n name =>
    some ("Flushed " ++ toString n ++ " metrics to output " ++ name)
  | WEvent.logFatalDrop name count npoints =>
    some (fatalHdr ++ "Write to output [" ++ name ++ "] failed " ++
      toString count ++ " times, dropping " ++ toString npoints ++ " metrics")
  | WEvent.logRetrying name =>
    some ("Error in output [" ++ name ++ "]: retrying")
  | WEvent.sleepFlushInterval => none

/-! ## Concrete fixtures used by witnesses and counterexamples. -/

/-- A sink whose `Connect` and `Close` always succeed. -/
def sinkOkA : OutputSink :=
  { name := "a", connectResult := fun _ => none, closeResult := none }

/-- A sink whose `Close` fails. -/
def sinkBadClose : OutputSink :=
  { name := "x", connectResult := fun _ => none, closeResult := some "boom" }

/-- A plugin with the default (zero) interval. -/
def pluginMem : RunningPlugin :=
  { name := "mem", config := { Interval := 0, Pass := [], Drop := [] } }

/-- A plugin with its own 10-second interval. -/
def pluginCpu : RunningPlugin :=
  { name := "cpu", config := { Interval := 10000000000, Pass := [], Drop := [] } }

/-- A concrete agent with one always-succeeding sink and two plugins. -/
def agentA : Agent :=
  { Interval := 10000000000, FlushInterval := 10000000000, FlushRetries := 2,
    UTC := true, Precision := "s", Debug := false, Hostname := "h",
    Tags := [("host", "h")], outputs := [sinkOkA],
    plugins := [pluginMem, pluginCpu] }

/-- A concrete agent whose two sinks close with an error then successfully. -/
def agentBadThenOk : Agent :=
  { agentA with outputs := [sinkBadClose, sinkOkA] }

/-- A concrete one-point batch. -/
def ptA : Point :=
  { measurement := "mem_usage", tags := [("host", "h")], value := 1, time := 0 }

/-- A sink whose first `Connect` fails and whose retry succeeds. -/
def sinkFlaky : OutputSink :=
  { name := "flaky",
    connectResult := fun n => if n = 0 then some "refused" else none,
    closeResult := none }

/-- A sink whose `Connect` always fails. -/
def sinkDown : OutputSink :=
  { name := "down", connectResult := fun _ => some "refused",
    closeResult := none }

/-- A `Gather` oracle that fails on every invocation. -/
def gErrBoomAt : Nat → Option String := fun _ => some "boom"

/-- A config that sets both the hostname and an explicit `host` tag. -/
def cfgHostCustom : Config := { hostname := "h1", tags := [("host", "custom")] }

/-- A config that leaves the hostname unset. -/
def cfgUnsetHost : Config := { hostname := "", tags := [("region", "eu")] }

/-- A shutdown oracle: the signal is observed from check 1 onwards. -/
def sdAfter1 : Nat → Bool := fun i => decide (1 ≤ i)

/-- A `Write` oracle that fails on every attempt. -/
def okNever : Nat → Bool := fun _ => false

/-- A shutdown oracle that never fires. -/
def sdNever : Nat → Bool := fun _ => false

/-! # Theorems -/

theorem closeLoop_trace (err : Option String) (outs : List OutputSink) :
    (closeLoop err outs).1 = outs.map OutputSink.name := by
  induction outs generalizing err with
  | nil => rfl
  | cons o rest ih => simp [closeLoop, ih]

theorem closeLoop_result (err : Option String) (outs : List OutputSink) :
    (closeLoop err outs).2 =
      match outs.getLast? with
      | none => err
      | some o => o.closeResult := by
  induction outs generalizing err with
  | nil => rfl
  | cons o rest ih =>
    cases rest with
    | nil => simp [closeLoop]
    | cons o' rest' => simpa [closeLoop] using ih o.closeResult

theorem flushSpawns_spec (points : List Point) (outs : List OutputSink) :
    flushSpawns points outs = outs.map fun o => (points, o.name) := by
  induction outs with
  | nil => rfl
  | cons o rest ih => simp [flushSpawns, ih]

/-- Claim C10: `Close` invokes `Close` on every configured sink, in
configuration order, but returns only the error of the last sink's `Close`;
an earlier sink's error is overwritten and discarded, so `Close` can return
nil even when an earlier sink failed to close. -/
theorem close_all_sinks_last_error_wins :
    (∀ a : Agent,
      (Close a).1 = a.outputs.map OutputSink.name ∧
      (Close a).2 =
        match a.outputs.getLast? with
        | none => none
        | some o => o.closeResult) ∧
    ((∃ o, o ∈ agentBadThenOk.outputs ∧ o.closeResult ≠ none) ∧
      (Close agentBadThenOk).2 = none) := by
  refine ⟨fun a => ⟨closeLoop_trace none a.outputs, closeLoop_result none a.outputs⟩, ?_, rfl⟩
  exact ⟨sinkBadClose, by simp [agentBadThenOk, agentA, sinkBadClose], by simp [sinkBadClose]⟩

/-- Claim C8: a flush invoked with an empty point list dispatches nothing —
no writer task is spawned, hence no sink `Write` is invoked on a zero-point
flush tick; for a non-empty list, exactly one writer task is spawned per
configured sink, carrying that batch. -/
theorem flush_empty_none_else_one_per_sink (a : Agent) (points : List Point) :
    (points = [] → flush a points = []) ∧
    (points ≠ [] →
      flush a points = a.outputs.map (fun o => (points, o.name)) ∧
      (flush a points).length = a.outputs.length) := by
  constructor
  · intro h; simp [flush, h]
  · intro h
    have hlen : ¬ points.length = 0 := by simpa using h
    refine ⟨?_, ?_⟩
    · simp [flush, hlen, flushSpawns_spec]
    · simp [flush, hlen, flushSpawns_spec]

/-- Witness for C8: at the concrete agent `agentA`, the empty batch spawns
no writer and the one-point batch spawns one writer per sink. -/
theorem flush_empty_none_else_one_per_sink_witness :
    flush agentA [] = [] ∧
    flush agentA [ptA] = agentA.outputs.map (fun o => ([ptA], o.name)) :=
  ⟨(flush_empty_none_else_one_per_sink agentA []).1 rfl,
   ((flush_empty_none_else_one_per_sink agentA [ptA]).2 (by simp)).1⟩

theorem connectLoop_all_ok (outs : List OutputSink)
    (h : ∀ o ∈ outs, (connectOne o).2 = none) : (connectLoop outs).2 = none := by
  induction outs with
  | nil => rfl
  | cons o rest ih =>
    have ho := h o (by simp)
    simp only [connectLoop]
    rw [ho]
    simpa using ih (fun o' ho' => h o' (by simp [ho']))

/-- Claim C5: per configured sink, a first `Connect` failure triggers exactly
one retry after a 15-second sleep; if the retry also fails, `Connect` returns
that second error and stops (aborting startup); if either attempt succeeds,
the loop proceeds to the next sink, and returns nil once every sink is
connected. -/
theorem connect_retries_once_then_aborts :
    (∀ o : OutputSink, o.connectResult 0 = none →
      connectOne o = ([ConnEvent.attempt o.name 0], none)) ∧
    (∀ (o : OutputSink) (e1 : String),
      o.connectResult 0 = some e1 → o.connectResult 1 = none →
      connectOne o = ([ConnEvent.attempt o.name 0, ConnEvent.sleep15 o.name,
                       ConnEvent.attempt o.name 1], none)) ∧
    (∀ (o : OutputSink) (e1 e2 : String),
      o.connectResult 0 = some e1 → o.connectResult 1 = some e2 →
      connectOne o = ([ConnEvent.attempt o.name 0, ConnEvent.sleep15 o.name,
                       ConnEvent.attempt o.name 1], some e2)) ∧
    (∀ (o : OutputSink) (rest : List OutputSink) (e : String),
      (connectOne o).2 = some e →
      connectLoop (o :: rest) = ((connectOne o).1, some e)) ∧
    (∀ (o : OutputSink) (rest : List OutputSink),
      (connectOne o).2 = none →
      connectLoop (o :: rest) =
        ((connectOne o).1 ++ (connectLoop rest).1, (connectLoop rest).2)) ∧
    (∀ a : Agent, (∀ o ∈ a.outputs, (connectOne o).2 = none) →
      (Connect a).2 = none) := by
  refine ⟨?_, ?_, ?_, ?_, ?_, ?_⟩
  · intro o h0; simp [connectOne, h0]
  · intro o e1 h0 h1; simp [connectOne, h0, h1]
  · intro o e1 e2 h0 h1; simp [connectOne, h0, h1]
  · intro o rest e he; simp only [connectLoop]; rw [he]
  · intro o rest he; simp only [connectLoop]; rw [he]
  · intro a h; exact connectLoop_all_ok a.outputs h

/-- Witness for C5: a flaky sink (fails once, retry succeeds) connects with
one retry after a sleep; an always-down sink aborts with the second error;
and `Connect` on `agentA` (one healthy sink) returns nil. -/
theorem connect_retries_once_then_aborts_witness :
    connectOne sinkFlaky =
      ([ConnEvent.attempt "flaky" 0, ConnEvent.sleep15 "flaky",
        ConnEvent.attempt "flaky" 1], none) ∧
    connectOne sinkDown =
      ([ConnEvent.attempt "down" 0, ConnEvent.sleep15 "down",
        ConnEvent.attempt "down" 1], some "refused") ∧
    (Connect agentA).2 = none :=
  ⟨connect_retries_once_then_aborts.2.1 sinkFlaky "refused" rfl rfl,
   connect_retries_once_then_aborts.2.2.1 sinkDown "refused" "refused" rfl rfl,
   connect_retries_once_then_aborts.2.2.2.2.2 agentA (by
     intro o ho
     simp only [agentA, List.mem_singleton] at ho
     subst ho
     rfl)⟩

theorem loadNames_all_registered (what : String) (registered filters : List String)
    (declared : List String)
    (h : ∀ n ∈ declared, registered.contains n = true) :
    loadNames what registered filters declared =
      Except.ok (declared.filter
        (fun n => sliceContains n filters || filters.length == 0)) := by
  induction declared with
  | nil => rfl
  | cons n rest ih =>
    have hn := h n (by simp)
    have hrest := ih (fun m hm => h m (by simp [hm]))
    simp only [loadNames, hn, Bool.true_eq_false, if_false, List.filter]
    cases hc : sliceContains n filters || filters.length == 0 with
    | true => simp [hrest]
    | false => simp [hrest, hc]

theorem loadNames_fail_fast (what : String) (registered filters : List String)
    (pre : List String) (n : String) (post : List String)
    (hpre : ∀ m ∈ pre, registered.contains m = true)
    (hn : registered.contains n = false) :
    loadNames what registered filters (pre ++ n :: post) =
      Except.error (undefinedMsg what n) := by
  induction pre with
  | nil =>
    simp only [List.nil_append, loadNames]
    rw [if_pos hn]
  | cons m rest ih =>
    have hm := hpre m (by simp)
    have hrest := ih (fun m' hm' => hpre m' (by simp [hm']))
    simp only [List.cons_append, loadNames, hm, Bool.true_eq_false, if_false, hrest]
    cases hc : sliceContains m filters || filters.length == 0 <;> simp [hc, hrest]

theorem strLeChars_total (as bs : List Char) :
    strLeChars as bs = true ∨ strLeChars bs as = true := by
  induction as generalizing bs with
  | nil => left; rfl
  | cons a as ih =>
    cases bs with
    | nil => right; rfl
    | cons b bs =>
      by_cases hab : a.toNat < b.toNat
      · left; simp [strLeChars, hab]
      · by_cases hba : b.toNat < a.toNat
        · right; simp [strLeChars, hba]
        · rcases ih bs with h | h
          · left; simp [strLeChars, hab, hba, h]
          · right; simp [strLeChars, hab, hba, h]

theorem strLeChars_trans (as bs cs : List Char)
    (h1 : strLeChars as bs = true) (h2 : strLeChars bs cs = true) :
    strLeChars as cs = true := by
  induction as generalizing bs cs with
  | nil => rfl
  | cons a as ih =>
    cases bs with
    | nil => simp [strLeChars] at h1
    | cons b bs =>
      cases cs with
      | nil => simp [strLeChars] at h2
      | cons c cs =>
        simp only [strLeChars] at h1 h2 ⊢
        split_ifs at h1 h2 ⊢ <;>
          first
          | rfl
          | omega
          | exact ih bs cs h1 h2

theorem strLe_total (s t : String) : strLe s t = true ∨ strLe t s = true :=
  strLeChars_total s.data t.data

theorem strLe_trans (s t u : String)
    (h1 : strLe s t = true) (h2 : strLe t u = true) : strLe s u = true :=
  strLeChars_trans s.data t.data u.data h1 h2

theorem perm_insertSorted (s : String) (l : List String) :
    (insertSorted s l).Perm (s :: l) := by
  induction l with
  | nil => simp [insertSorted]
  | cons t ts ih =>
    by_cases hst : strLe s t = true
    · simp [insertSorted, hst]
    · simp only [insertSorted, if_neg hst]
      exact (ih.cons t).trans (List.Perm.swap s t ts)

theorem sorted_insertSorted (s : String) (l : List String)
    (h : List.Sorted (fun a b => strLe a b = true) l) :
    List.Sorted (fun a b => strLe a b = true) (insertSorted s l) := by
  induction l with
  | nil => simp [insertSorted]
  | cons t ts ih =>
    by_cases hst : strLe s t = true
    · simp only [insertSorted, if_pos hst]
      refine List.sorted_cons.2 ⟨?_, h⟩
      intro b hb
      rcases List.mem_cons.1 hb with rfl | hb'
      · exact hst
      · exact strLe_trans s t b hst ((List.sorted_cons.1 h).1 b hb')
    · simp only [insertSorted, if_neg hst]
      have ht := List.sorted_cons.1 h
      refine List.sorted_cons.2 ⟨?_, ih ht.2⟩
      intro b hb
      have hmem : b = s ∨ b ∈ ts := by
        have := (List.Perm.mem_iff (perm_insertSorted s ts)).1 hb
        simpa using this
      rcases hmem with rfl | hb'
      · rcases strLe_total t b with h' | h'
        · exact h'
        · exact absurd h' hst
      · exact ht.1 b hb'

theorem sortStrings_sorted_perm (xs : List String) :
    List.Sorted (fun a b => strLe a b = true) (sortStrings xs) ∧
      (sortStrings xs).Perm xs := by
  induction xs with
  | nil => exact ⟨List.sorted_nil, List.Perm.refl []⟩
  | cons x rest ih =>
    refine ⟨sorted_insertSorted x (sortStrings rest) ih.1, ?_⟩
    exact (perm_insertSorted x (sortStrings rest)).trans (ih.2.cons x)

/-- Claim C6: `LoadOutputs` and `LoadPlugins` instantiate exactly the
declared names matching the filter set (all of them when the filter set is
empty); a declared name absent from the registry — even one the filter would
exclude — fails loading with an error naming it; and the returned list is the
sorted permutation of the instantiated names, so loading is deterministic. -/
theorem load_exact_filtered_sorted :
    (∀ declared registered filters : List String,
      (∀ n ∈ declared, registered.contains n = true) →
      LoadOutputs declared registered filters =
        Except.ok (sortStrings (declared.filter
          (fun n => sliceContains n filters || filters.length == 0))) ∧
      LoadPlugins declared registered filters =
        Except.ok (sortStrings (declared.filter
          (fun n => sliceContains n filters || filters.length == 0)))) ∧
    (∀ (registered filters pre : List String) (n : String) (post : List String),
      (∀ m ∈ pre, registered.contains m = true) →
      registered.contains n = false →
      LoadOutputs (pre ++ n :: post) registered filters =
        Except.error (undefinedMsg "output" n) ∧
      LoadPlugins (pre ++ n :: post) registered filters =
        Except.error (undefinedMsg "plugin" n)) ∧
    (∀ xs : List String,
      List.Sorted (fun a b => strLe a b = true) (sortStrings xs) ∧
        (sortStrings xs).Perm xs) := by
  refine ⟨?_, ?_, sortStrings_sorted_perm⟩
  · intro declared registered filters h
    constructor
    · simp [LoadOutputs, loadNames_all_registered _ _ _ _ h, Except.map]
    · simp [LoadPlugins, loadNames_all_registered _ _ _ _ h, Except.map]
  · intro registered filters pre n post hpre hn
    constructor
    · simp [LoadOutputs, loadNames_fail_fast _ _ _ _ _ _ hpre hn, Except.map]
    · simp [LoadPlugins, loadNames_fail_fast _ _ _ _ _ _ hpre hn, Except.map]

/-- Witness for C6 at concrete lists: declared `[mem, cpu]`, registry
`[cpu, mem, net]`, no filter — both loaders return the sorted pair; with
`disk` declared but unregistered, both fail naming `disk`. -/
theorem load_exact_filtered_sorted_witness :
    LoadOutputs ["mem", "cpu"] ["cpu", "mem", "net"] [] =
      Except.ok ["cpu", "mem"] ∧
    LoadPlugins ["mem", "disk"] ["cpu", "mem", "net"] [] =
      Except.error (undefinedMsg "plugin" "disk") := by
  constructor
  · have h := (load_exact_filtered_sorted.1 ["mem", "cpu"] ["cpu", "mem", "net"] []
      (by decide)).1
    rw [h]; rfl
  · have h := (load_exact_filtered_sorted.2.1 ["cpu", "mem", "net"] [] ["mem"] "disk" []
      (by decide) (by decide)).2
    simpa using h

/-- Counterexample to claim C3 as stated: the Test-mode accumulator never
has the default-tag map installed, so not every mode installs it. -/
theorem test_mode_accum_lacks_default_tags :
    ¬ (∀ (a : Agent) (p : RunningPlugin),
        (parallelAccum a p).defaultTags = some a.Tags ∧
        (separateAccum a p).defaultTags = some a.Tags ∧
        (testAccum p).defaultTags = some a.Tags) := by
  intro h
  have hc := (h agentA pluginMem).2.2
  simp [testAccum, NewAccumulator, Accum.setDebug, Accum.setPfx] at hc

/-- Claim C3 (amended): the accumulators handed out by parallel and
separate gathering carry the agent's default-tag map (so published points
get the `host` default tag), but the Test-mode accumulator does not —
`Test` sets debug and the prefix only and never calls `SetDefaultTags`. -/
theorem accum_default_tags_by_mode (a : Agent) (p : RunningPlugin) :
    (parallelAccum a p).defaultTags = some a.Tags ∧
    (separateAccum a p).defaultTags = some a.Tags ∧
    (testAccum p).defaultTags = none ∧
    (testAccum p).debug = true ∧
    (parallelAccum a p).pfx = p.name ++ "_" ∧
    (separateAccum a p).pfx = p.name ++ "_" ∧
    (testAccum p).pfx = p.name ++ "_" :=
  ⟨rfl, rfl, rfl, rfl, rfl, rfl, rfl⟩

theorem mem_gatherParallelTasks (p : RunningPlugin) (ps : List RunningPlugin) :
    p ∈ gatherParallelTasks ps ↔ p ∈ ps ∧ p.config.Interval = 0 := by
  induction ps with
  | nil => simp [gatherParallelTasks]
  | cons q rest ih =>
    rcases eq_or_ne q.config.Interval 0 with hq | hq
    · have hstep : gatherParallelTasks (q :: rest) = q :: gatherParallelTasks rest := by
        simp [gatherParallelTasks, hq]
      rw [hstep]
      constructor
      · intro h
        rcases List.mem_cons.1 h with rfl | h'
        · exact ⟨List.mem_cons_self _ _, hq⟩
        · rcases ih.1 h' with ⟨hm, h0⟩
          exact ⟨List.mem_cons_of_mem _ hm, h0⟩
      · rintro ⟨hm, h0⟩
        rcases List.mem_cons.1 hm with rfl | hm'
        · exact List.mem_cons_self _ _
        · exact List.mem_cons_of_mem _ (ih.2 ⟨hm', h0⟩)
    · have hstep : gatherParallelTasks (q :: rest) = gatherParallelTasks rest := by
        simp [gatherParallelTasks, bne_iff_ne, hq]
      rw [hstep, ih]
      constructor
      · rintro ⟨hm, h0⟩
        exact ⟨List.mem_cons_of_mem _ hm, h0⟩
      · rintro ⟨hm, h0⟩
        rcases List.mem_cons.1 hm with rfl | hm'
        · exact absurd h0 hq
        · exact ⟨hm', h0⟩

theorem mem_runSeparateTasks (p : RunningPlugin) (ps : List RunningPlugin) :
    p ∈ runSeparateTasks ps ↔ p ∈ ps ∧ p.config.Interval ≠ 0 := by
  induction ps with
  | nil => simp [runSeparateTasks]
  | cons q rest ih =>
    rcases eq_or_ne q.config.Interval 0 with hq | hq
    · have hstep : runSeparateTasks (q :: rest) = runSeparateTasks rest := by
        simp [runSeparateTasks, hq]
      rw [hstep, ih]
      constructor
      · rintro ⟨hm, h0⟩
        exact ⟨List.mem_cons_of_mem _ hm, h0⟩
      · rintro ⟨hm, h0⟩
        rcases List.mem_cons.1 hm with rfl | hm'
        · exact absurd hq h0
        · exact ⟨hm', h0⟩
    · have hstep : runSeparateTasks (q :: rest) = q :: runSeparateTasks rest := by
        simp [runSeparateTasks, bne_iff_ne, hq]
      rw [hstep]
      constructor
      · intro h
        rcases List.mem_cons.1 h with rfl | h'
        · exact ⟨List.mem_cons_self _ _, hq⟩
        · rcases ih.1 h' with ⟨hm, h0⟩
          exact ⟨List.mem_cons_of_mem _ hm, h0⟩
      · rintro ⟨hm, h0⟩
        rcases List.mem_cons.1 hm with rfl | hm'
        · exact List.mem_cons_self _ _
        · exact List.mem_cons_of_mem _ (ih.2 ⟨hm', h0⟩)

/-- Claim C4: the set of plugins the parallel mode schedules on a global
tick is exactly the set of loaded zero-interval plugins; every plugin with
a non-zero configured interval — including one equal to the global interval
— is scheduled only by its own separate gatherer. -/
theorem parallel_schedules_exactly_zero_interval (a : Agent) (p : RunningPlugin) :
    (p ∈ gatherParallelTasks a.plugins ↔ p ∈ a.plugins ∧ p.config.Interval = 0) ∧
    (p ∈ runSeparateTasks a.plugins ↔ p ∈ a.plugins ∧ p.config.Interval ≠ 0) ∧
    (∀ gErr, (gatherParallel a gErr).accums =
      (gatherParallelTasks a.plugins).map (fun q => parallelAccum a q)) ∧
    (p.config.Interval = a.Interval → a.Interval ≠ 0 →
      p ∉ gatherParallelTasks a.plugins ∧
      (p ∈ a.plugins → p ∈ runSeparateTasks a.plugins)) := by
  refine ⟨mem_gatherParallelTasks p a.plugins, mem_runSeparateTasks p a.plugins,
    fun gErr => rfl, ?_⟩
  intro heq hne
  have hpne : p.config.Interval ≠ 0 := by rw [heq]; exact hne
  constructor
  · intro hmem
    exact hpne ((mem_gatherParallelTasks p a.plugins).1 hmem).2
  · intro hmem
    exact (mem_runSeparateTasks p a.plugins).2 ⟨hmem, hpne⟩

/-- Witness for C4 at the boundary case: `pluginCpu`'s own interval equals
`agentA`'s global interval, and it is scheduled by separate mode only. -/
theorem parallel_schedules_exactly_zero_interval_witness :
    pluginCpu ∉ gatherParallelTasks agentA.plugins ∧
    pluginCpu ∈ runSeparateTasks agentA.plugins :=
  ⟨((parallel_schedules_exactly_zero_interval agentA pluginCpu).2.2.2 rfl
      (by decide)).1,
   ((parallel_schedules_exactly_zero_interval agentA pluginCpu).2.2.2 rfl
      (by decide)).2 (by simp [agentA])⟩

/-- Claim C7: a collector `Gather` error in either mode is logged and
swallowed. `gatherParallel` still spawns a task per zero-interval plugin,
waits for all of them and returns nil regardless of the per-plugin errors;
the `gatherSeparate` loop never exits with an error (its `return outerr`
branch is dead) and, absent shutdown, an erroring iteration is followed by
the next tick's iteration. -/
theorem gather_errors_logged_and_swallowed :
    (∀ (a : Agent) (gErr : String → Option String),
      (gatherParallel a gErr).result = none ∧
      (gatherParallel a gErr).accums =
        (gatherParallelTasks a.plugins).map (fun p => parallelAccum a p) ∧
      (gatherParallel a gErr).logs =
        (gatherParallelTasks a.plugins).filterMap
          (fun p => (gErr p.name).map (fun e => errorLogLine p.name e))) ∧
    (∀ (name : String) (gErr : Nat → Option String) (sd : Nat → Bool)
        (fuel i : Nat) (e : String),
      (gatherSeparateRun name gErr sd fuel i).2.2 ≠ SepExit.errExit e) ∧
    (∀ (name : String) (gErr : Nat → Option String) (sd : Nat → Bool)
        (fuel i : Nat),
      sd i = false →
      gatherSeparateRun name gErr sd (fuel + 1) i =
        ((gatherSeparateRun name gErr sd fuel (i + 1)).1 + 1,
         (match gErr i with
          | some e => [errorLogLine name e]
          | none => []) ++ (gatherSeparateRun name gErr sd fuel (i + 1)).2.1,
         (gatherSeparateRun name gErr sd fuel (i + 1)).2.2)) := by
  refine ⟨fun a gErr => ⟨rfl, rfl, rfl⟩, ?_, ?_⟩
  · intro name gErr sd fuel
    induction fuel with
    | zero => intro i e; simp [gatherSeparateRun]
    | succ n ih =>
      intro i e
      by_cases hsd : sd i = true
      · simp [gatherSeparateRun, hsd]
      · have hsd' : sd i = false := by simpa using hsd
        simp only [gatherSeparateRun, hsd', Bool.false_eq_true, if_false]
        exact ih (i + 1) e
  · intro name gErr sd fuel i hsd
    simp [gatherSeparateRun, hsd]

/-- Witness for C7: with a `Gather` that always fails and shutdown observed
from check 1 on, iteration 0 of the separate loop logs the error and
continues into iteration 1. -/
theorem gather_errors_logged_and_swallowed_witness :
    gatherSeparateRun "cpu" gErrBoomAt sdAfter1 2 0 =
      ((gatherSeparateRun "cpu" gErrBoomAt sdAfter1 1 1).1 + 1,
       (match gErrBoomAt 0 with
        | some e => [errorLogLine "cpu" e]
        | none => []) ++ (gatherSeparateRun "cpu" gErrBoomAt sdAfter1 1 1).2.1,
       (gatherSeparateRun "cpu" gErrBoomAt sdAfter1 1 1).2.2) :=
  gather_errors_logged_and_swallowed.2.2 "cpu" gErrBoomAt sdAfter1 1 0 rfl

theorem lookupTag_setTag (m : TagMap) (k v : String) :
    lookupTag (setTag m k v) k = some v := by
  induction m with
  | nil => simp [setTag, lookupTag]
  | cons kv rest ih =>
    obtain ⟨k', v'⟩ := kv
    by_cases hk : k' = k
    · simp [setTag, hk, lookupTag]
    · simp [setTag, hk, lookupTag, ih]

theorem applyAgent_hostname_empty_iff (cfg : Config) :
    ((ApplyAgent cfg defaultAgent).Hostname = "") ↔ cfg.hostname = "" := by
  by_cases h : cfg.hostname = "" <;> simp [ApplyAgent, defaultAgent, h]

theorem newAgent_eq (cfg : Config) (osh : Option String) :
    NewAgent cfg osh =
      if (ApplyAgent cfg defaultAgent).Hostname = "" then
        osh.map (fun h =>
          ({ ApplyAgent cfg defaultAgent with
             Hostname := h,
             Tags := setTag (ApplyAgent cfg defaultAgent).Tags "host" h }, true))
      else
        some ({ ApplyAgent cfg defaultAgent with
                Tags := setTag (ApplyAgent cfg defaultAgent).Tags "host"
                  (ApplyAgent cfg defaultAgent).Hostname }, false) := by
  by_cases h0 : (ApplyAgent cfg defaultAgent).Hostname = "" <;>
    cases osh <;> simp [NewAgent, h0]

/-- Counterexample to claim C9 as stated: a `host` tag set explicitly in the
config does not survive — `NewAgent` overwrites it with the hostname. -/
theorem newAgent_overwrites_explicit_host_tag :
    ¬ (∀ (cfg : Config) (osh : Option String) (r : Agent × Bool) (v : String),
        NewAgent cfg osh = some r →
        lookupTag cfg.tags "host" = some v →
        lookupTag r.1.Tags "host" = some v) := by
  intro h
  have hc := h cfgHostCustom none
    ({ defaultAgent with Hostname := "h1", Tags := [("host", "h1")] }, false)
    "custom" rfl rfl
  exact absurd hc (by decide)

/-- Claim C9 (amended): `NewAgent` resolves the OS hostname only when the
config did not set one, and always writes the final hostname into the tag
map under `host`, overwriting a config-supplied `host` tag; after `NewAgent`
succeeds the tag map contains `host`, bound to the hostname. -/
theorem newAgent_host_tag (cfg : Config) (osh : Option String) :
    (∀ r : Agent × Bool, NewAgent cfg osh = some r →
      lookupTag r.1.Tags "host" = some r.1.Hostname ∧
      (r.2 = true ↔ cfg.hostname = "")) ∧
    (cfg.hostname ≠ "" →
      ∃ a : Agent, NewAgent cfg osh = some (a, false) ∧
        a.Hostname = cfg.hostname) ∧
    (∀ h : String, cfg.hostname = "" → osh = some h →
      ∃ a : Agent, NewAgent cfg osh = some (a, true) ∧ a.Hostname = h) ∧
    (cfg.hostname = "" → osh = none → NewAgent cfg osh = none) := by
  by_cases h0 : cfg.hostname = ""
  · have hc : (ApplyAgent cfg defaultAgent).Hostname = "" :=
      (applyAgent_hostname_empty_iff cfg).2 h0
    rw [newAgent_eq, if_pos hc]
    cases osh with
    | none =>
      refine ⟨?_, ?_, ?_, ?_⟩
      · intro r hr; simp at hr
      · intro hne; exact absurd h0 hne
      · intro h hh hsome; exact absurd hsome (by simp)
      · intro _ _; simp
    | some hh =>
      refine ⟨?_, ?_, ?_, ?_⟩
      · intro r hr
        simp only [Option.map_some'] at hr
        have h' := Option.some.inj hr
        subst h'
        exact ⟨lookupTag_setTag _ _ _, by simp [h0]⟩
      · intro hne; exact absurd h0 hne
      · intro h _ hsome
        have h' : h = hh := (Option.some.inj hsome).symm
        subst h'
        exact ⟨_, rfl, rfl⟩
      · intro _ hnone; exact absurd hnone (by simp)
  · have hc : ¬ (ApplyAgent cfg defaultAgent).Hostname = "" := by
      intro h; exact h0 ((applyAgent_hostname_empty_iff cfg).1 h)
    rw [newAgent_eq, if_neg hc]
    have hhost : (ApplyAgent cfg defaultAgent).Hostname = cfg.hostname := by
      simp [ApplyAgent, defaultAgent, h0]
    refine ⟨?_, ?_, ?_, ?_⟩
    · intro r hr
      have h' := Option.some.inj hr
      subst h'
      exact ⟨lookupTag_setTag _ _ _, by simp [h0]⟩
    · intro _
      exact ⟨_, rfl, hhost⟩
    · intro h hcontra; exact absurd hcontra h0
    · intro hcontra; exact absurd hcontra h0

/-- Witness for C9 at concrete configs: with the hostname unset the OS
hostname is resolved and becomes both `Hostname` and the `host` tag. -/
theorem newAgent_host_tag_witness :
    ∃ a : Agent, NewAgent cfgUnsetHost (some "os1") = some (a, true) ∧
      a.Hostname = "os1" :=
  (newAgent_host_tag cfgUnsetHost (some "os1")).2.2.1 "os1" rfl rfl

theorem wof_attempts_le (retries npoints : Nat) (name : String)
    (ok sd : Nat → Bool) :
    ∀ fuel r, retries - r ≤ fuel →
      countAttempts (writeOutputFrom retries npoints name ok sd r).1 ≤
        fuel + 1 := by
  intro fuel
  induction fuel with
  | zero =>
    intro r hr
    rw [writeOutputFrom]
    split_ifs with h1 h2 h3
    · simp [countAttempts]
    · simp [countAttempts]
    · simp [countAttempts]
    · omega
  | succ n ih =>
    intro r hr
    rw [writeOutputFrom]
    split_ifs with h1 h2 h3
    · simp [countAttempts]
    · simp [countAttempts]
    · simp [countAttempts]
    · have hrec := ih (r + 1) (by omega)
      simp [countAttempts, List.countP_cons] at hrec ⊢
      omega

theorem wof_allfail (retries npoints : Nat) (name : String) (ok sd : Nat → Bool)
    (hok : ∀ i, ok i = false) (hsd : ∀ i, sd i = false) :
    ∀ fuel r, retries - r = fuel →
      countAttempts (writeOutputFrom retries npoints name ok sd r).1 = fuel + 1 ∧
      (writeOutputFrom retries npoints name ok sd r).2 = WOutcome.dropped ∧
      WEvent.logFatalDrop name (retries + 1) npoints ∈
        (writeOutputFrom retries npoints name ok sd r).1 := by
  intro fuel
  induction fuel with
  | zero =>
    intro r hr
    have hle : retries ≤ r := by omega
    rw [writeOutputFrom]
    simp [hsd r, hok r, hle, countAttempts]
  | succ n ih =>
    intro r hr
    have hnle : ¬ retries ≤ r := by omega
    obtain ⟨ih1, ih2, ih3⟩ := ih (r + 1) (by omega)
    rw [writeOutputFrom]
    rw [if_neg (by simp [hsd r]), if_neg (by simp [hok r]), dif_neg hnle]
    refine ⟨?_, ih2, ?_⟩
    · simp [countAttempts, List.countP_cons] at ih1 ⊢
      omega
    · exact List.mem_cons_of_mem _ (List.mem_cons_of_mem _
        (List.mem_cons_of_mem _ ih3))

theorem wof_success (retries npoints : Nat) (name : String) (ok sd : Nat → Bool)
    (k : Nat) (hk : k ≤ retries) (hok : ∀ i, i < k → ok i = false)
    (hokk : ok k = true) (hsd : ∀ i, i ≤ k → sd i = false) :
    ∀ fuel r, k - r = fuel → r ≤ k →
      countAttempts (writeOutputFrom retries npoints name ok sd r).1 = fuel + 1 ∧
      (writeOutputFrom retries npoints name ok sd r).2 = WOutcome.success := by
  intro fuel
  induction fuel with
  | zero =>
    intro r hr hrk
    have hrk' : r = k := by omega
    subst hrk'
    rw [writeOutputFrom]
    simp [hsd r le_rfl, hokk, countAttempts]
  | succ n ih =>
    intro r hr hrk
    have hrlt : r < k := by omega
    obtain ⟨ih1, ih2⟩ := ih (r + 1) (by omega) (by omega)
    rw [writeOutputFrom]
    rw [if_neg (by simp [hsd r (by omega)]), if_neg (by simp [hok r hrlt]),
      dif_neg (by omega)]
    refine ⟨?_, ih2⟩
    simp [countAttempts, List.countP_cons] at ih1 ⊢
    omega

theorem wof_shutdown_after_sleep (retries npoints : Nat) (name : String)
    (ok sd : Nat → Bool) (k : Nat) (hok : ∀ i, i ≤ k → ok i = false)
    (hsd : ∀ i, i ≤ k → sd i = false) (hsd' : sd (k + 1) = true)
    (hk : k < retries) :
    ∀ fuel r, k + 1 - r = fuel → r ≤ k + 1 →
      countAttempts (writeOutputFrom retries npoints name ok sd r).1 = fuel + 1 ∧
      (writeOutputFrom retries npoints name ok sd r).2 =
        WOutcome.shutdownExit := by
  intro fuel
  induction fuel with
  | zero =>
    intro r hr hrk
    have hrk' : r = k + 1 := by omega
    subst hrk'
    rw [writeOutputFrom]
    simp [hsd', countAttempts]
  | succ n ih =>
    intro r hr hrk
    have hrle : r ≤ k := by omega
    obtain ⟨ih1, ih2⟩ := ih (r + 1) (by omega) (by omega)
    rw [writeOutputFrom]
    rw [if_neg (by simp [hsd r hrle]), if_neg (by simp [hok r hrle]),
      dif_neg (by omega)]
    refine ⟨?_, ih2⟩
    simp [countAttempts, List.countP_cons] at ih1 ⊢
    omega

/-- Claim C1: every (batch, sink) writer invocation makes at most
`FlushRetries + 1` `sink.Write` attempts; when every attempt fails and
shutdown is never observed, exactly `FlushRetries + 1` attempts are made,
the batch is dropped (`dropped` return, no re-queue) with the
FATAL-prefixed log line reporting the attempt count and batch size; a
successful attempt ends the invocation with no further attempt. -/
theorem writeOutput_retry_bound (a : Agent) (points : List Point)
    (name : String) (ok sd : Nat → Bool) :
    countAttempts (writeOutput a points name ok sd).1 ≤ a.FlushRetries + 1 ∧
    ((∀ i, ok i = false) → (∀ i, sd i = false) →
      countAttempts (writeOutput a points name ok sd).1 = a.FlushRetries + 1 ∧
      (writeOutput a points name ok sd).2 = WOutcome.dropped ∧
      WEvent.logFatalDrop name (a.FlushRetries + 1) points.length ∈
        (writeOutput a points name ok sd).1 ∧
      (∃ tail, renderLog (WEvent.logFatalDrop name (a.FlushRetries + 1)
        points.length) = some (fatalHdr ++ tail))) ∧
    (∀ k, k ≤ a.FlushRetries → (∀ i, i < k → ok i = false) → ok k = true →
      (∀ i, i ≤ k → sd i = false) →
      countAttempts (writeOutput a points name ok sd).1 = k + 1 ∧
      (writeOutput a points name ok sd).2 = WOutcome.success) := by
  refine ⟨?_, ?_, ?_⟩
  · exact wof_attempts_le a.FlushRetries points.length name ok sd
      a.FlushRetries 0 (by omega)
  · intro hok hsd
    obtain ⟨h1, h2, h3⟩ := wof_allfail a.FlushRetries points.length name ok sd
      hok hsd (a.FlushRetries - 0) 0 rfl
    have h1' : countAttempts (writeOutput a points name ok sd).1 =
        a.FlushRetries + 1 := by
      have := h1
      simp only [Nat.sub_zero] at this
      exact this
    exact ⟨h1', h2, h3, ⟨_, rfl⟩⟩
  · intro k hk hok hokk hsd
    obtain ⟨h1, h2⟩ := wof_success a.FlushRetries points.length name ok sd
      k hk hok hokk hsd (k - 0) 0 rfl (by omega)
    have h1' : countAttempts (writeOutput a points name ok sd).1 = k + 1 := by
      have := h1
      simp only [Nat.sub_zero] at this
      exact this
    exact ⟨h1', h2⟩

/-- Witness for C1: `agentA` (`FlushRetries = 2`) with an always-failing
sink and no shutdown drops the one-point batch after exactly 3 attempts. -/
theorem writeOutput_retry_bound_witness :
    countAttempts (writeOutput agentA [ptA] "a" okNever sdNever).1 =
      agentA.FlushRetries + 1 ∧
    (writeOutput agentA [ptA] "a" okNever sdNever).2 = WOutcome.dropped :=
  ⟨((writeOutput_retry_bound agentA [ptA] "a" okNever sdNever).2.1
      (fun _ => rfl) (fun _ => rfl)).1,
   ((writeOutput_retry_bound agentA [ptA] "a" okNever sdNever).2.1
      (fun _ => rfl) (fun _ => rfl)).2.1⟩

/-- Counterexample to claim C2 as stated: a shutdown signal delivered while
the writer sleeps between retries does not cancel the retry. `time.Sleep`
is uninterruptible and the shutdown check follows the next `Write`, so one
further attempt is performed: with shutdown arriving during the sleep after
attempt 0, the writer makes 2 attempts, not 1. -/
theorem shutdown_during_sleep_still_retries :
    ¬ (∀ (retries npoints : Nat) (name : String) (ok sd : Nat → Bool)
        (k : Nat),
        (∀ i, i ≤ k → ok i = false) → (∀ i, i ≤ k → sd i = false) →
        (∀ i, k < i → sd i = true) → k < retries →
        countAttempts (writeOutputFrom retries npoints name ok sd 0).1 =
          k + 1) := by
  intro h
  have hsd0 : ∀ i, i ≤ 0 → sdAfter1 i = false := by
    intro i hi
    have h0 : i = 0 := Nat.le_zero.mp hi
    subst h0
    rfl
  have hsd1 : ∀ i, 0 < i → sdAfter1 i = true := by
    intro i hi
    simp only [sdAfter1, decide_eq_true_eq]
    omega
  have hc := h 2 1 "a" okNever sdAfter1 0 (fun _ _ => rfl) hsd0 hsd1
    (by omega)
  have hev : countAttempts (writeOutputFrom 2 1 "a" okNever sdAfter1 0).1 =
      2 := by
    rw [writeOutputFrom, writeOutputFrom]
    norm_num [okNever, sdAfter1, countAttempts]
  omega

/-- Claim C2 (amended): if the shutdown signal is delivered while the writer
sleeps between retries (every check after check `k` observes it), the sleep
completes and exactly one further `Write` attempt is performed — `k + 2`
attempts in all — after which the writer exits on the shutdown check,
without logging or retrying further. -/
theorem shutdown_after_sleep_one_more_attempt (retries npoints : Nat)
    (name : String) (ok sd : Nat → Bool) (k : Nat)
    (hok : ∀ i, i ≤ k → ok i = false) (hsd : ∀ i, i ≤ k → sd i = false)
    (hsd' : sd (k + 1) = true) (hk : k < retries) :
    countAttempts (writeOutputFrom retries npoints name ok sd 0).1 = k + 2 ∧
    (writeOutputFrom retries npoints name ok sd 0).2 =
      WOutcome.shutdownExit := by
  obtain ⟨h1, h2⟩ := wof_shutdown_after_sleep retries npoints name ok sd k
    hok hsd hsd' hk (k + 1 - 0) 0 rfl (by omega)
  refine ⟨?_, h2⟩
  simp only [Nat.sub_zero] at h1
  omega

/-- Witness for C2 (amended): shutdown during the sleep after attempt 0
leads to exactly 2 attempts and a shutdown exit. -/
theorem shutdown_after_sleep_one_more_attempt_witness :
    countAttempts (writeOutputFrom 2 1 "a" okNever sdAfter1 0).1 = 0 + 2 ∧
    (writeOutputFrom 2 1 "a" okNever sdAfter1 0).2 = WOutcome.shutdownExit :=
  shutdown_after_sleep_one_more_attempt 2 1 "a" okNever sdAfter1 0
    (fun _ _ => rfl)
    (fun i hi => by
      have h0 : i = 0 := Nat.le_zero.mp hi
      subst h0
      rfl)
    rfl (by omega)

end Telegraf
